import Mathlib

/-!
Verification development for the guvi-honeypot-2.0 intelligence-extraction core.

The definitions below are a shallow embedding of the Python source:
  * app/core/session_store.py   (session data model, get_or_create_session, update_session)
  * app/modules/member2/scam_detection.py  (detect_scam, calculate_sophistication,
      ScamDetector.classify_scam_type, PerfectScamDetector.classify_scam_type)
  * app/main.py                 (honeypot_message turn pipeline, escalation gate)
  * app/core/callback.py        (send_final_callback, modelled as a boolean transport oracle)

Modelling conventions:
  * Confidence is a `Nat` counted in tenths of a unit (0..10 stands for 0.0..1.0).
    Every weight in the source is a decimal multiple of 0.1 and the source rounds the
    stored value to two decimals each turn (`round(confidence, 2)` after `min(1.0, ...)`),
    so stored confidences live exactly on this grid and the float arithmetic of the
    source agrees with this integer model on every stored value and every threshold
    comparison used by the escalation gate.
  * Python exceptions are modelled with `Option`: `detect_scam` returns `none` for the
    `NameError` its classification block can raise, and the collection mutations that
    happened before the raise persist in the returned session, matching the in-place
    dict mutation of the source.
  * Strings are processed as ASCII, matching every input pinned in the theorems below;
    `str.lower` is modelled on the ASCII range.
-/

/-! ## String utilities (Python `str.lower`, substring test `in`) -/

/-- ASCII lowering of one character, modelling Python `str.lower` on ASCII text. -/
def lowerChar (c : Char) : Char :=
  if 'A' ≤ c ∧ c ≤ 'Z' then Char.ofNat (c.toNat + 32) else c

/-- Python `message.lower()` (ASCII range). -/
def lowerStr (s : String) : String :=
  String.mk (s.toList.map lowerChar)

/-- Does `hay` start with `needle` (character lists)? -/
def startsWithL : List Char → List Char → Bool
  | _, [] => true
  | [], _ :: _ => false
  | a :: as, b :: bs => a == b && startsWithL as bs

/-- Python substring test `needle in hay` on character lists. -/
def containsL (needle : List Char) : List Char → Bool
  | [] => startsWithL [] needle
  | c :: t => startsWithL (c :: t) needle || containsL needle t

/-- Python substring test `kw in msg` on strings. -/
def strIn (needle hay : String) : Bool :=
  containsL needle.toList hay.toList

/-- Python `any(w in msgLower for w in words)`. -/
def anyIn (msgLower : String) (words : List String) : Bool :=
  words.any (fun w => strIn w msgLower)

/-! ## Regex scanners used by `detect_scam` (scam_detection.py lines 16, 24, 32, 40)

Each scanner reproduces `re.findall` (leftmost, greedy, non-overlapping) for the one
concrete pattern it serves. -/

/-- Regex word character (`\w`): ASCII letter, digit or underscore. -/
def isWordCh (c : Char) : Bool :=
  c.isAlpha || c.isDigit || c == '_'

/-- Emit a digit run as a match of `\b\d{lo,hi}\b` when both boundaries are word
boundaries and the length is in range.  A run that fails any condition produces no
match at all: every interior position of a digit run sits between two word
characters, so the regex cannot start or stop inside the run. -/
def emitDigitRun (lo hi : Nat) (startOk afterOk : Bool) (run : List Char) : List (List Char) :=
  if startOk && afterOk && decide (lo ≤ run.length) && decide (run.length ≤ hi)
      && !run.isEmpty then [run] else []

/-- Single left-to-right pass collecting the matches of `\b\d{lo,hi}\b`.
`startOk` records whether the character before the run being accumulated (held
reversed in `cur`) was a non-word character or the start of the string. -/
def scanDigitRunsAux (lo hi : Nat) : List Char → Bool → List Char → List (List Char)
  | [], startOk, cur => emitDigitRun lo hi startOk true cur.reverse
  | c :: t, startOk, cur =>
    if c.isDigit then scanDigitRunsAux lo hi t startOk (c :: cur)
    else
      emitDigitRun lo hi startOk (!isWordCh c) cur.reverse
        ++ scanDigitRunsAux lo hi t (!isWordCh c) []

/-- `re.findall` for `\b\d{lo,hi}\b`: bank accounts use `lo = 9, hi = 18`
(scam_detection.py line 24), phone numbers use `lo = 10, hi = 12` (line 40). -/
def scanDigitRuns (lo hi : Nat) (s : String) : List String :=
  (scanDigitRunsAux lo hi s.toList true []).map String.mk

/-- Character class of the UPI local part: `[a-zA-Z0-9.\-_]`. -/
def isLocalCh (c : Char) : Bool :=
  c.isAlphanum || c == '.' || c == '-' || c == '_'

/-- Try to match `[a-zA-Z0-9.\-_]{2,256}@[a-zA-Z]{2,64}` at the head of `cs`.
The local run is maximal (no class character can equal `@`, so backtracking inside
the run never finds `@` earlier); the domain is taken greedily up to 64 letters. -/
def upiMatchAt (cs : List Char) : Option (List Char × List Char) :=
  let run := cs.takeWhile isLocalCh
  let rest := cs.drop run.length
  if 2 ≤ run.length ∧ run.length ≤ 256 then
    match rest with
    | '@' :: r2 =>
      let dom := r2.takeWhile Char.isAlpha
      if 2 ≤ dom.length then
        let dtake := dom.take 64
        some (run ++ '@' :: dtake, r2.drop dtake.length)
      else none
    | _ => none
  else none

/-- Fueled scan for the UPI pattern; fuel is the length of the remaining text, which
bounds the number of scanning steps. -/
def findUpisAux : Nat → List Char → List (List Char)
  | 0, _ => []
  | _, [] => []
  | fuel + 1, c :: t =>
    match upiMatchAt (c :: t) with
    | some (m, rest) => m :: findUpisAux fuel rest
    | none => findUpisAux fuel t

/-- `re.findall` for the UPI pattern `[a-zA-Z0-9.\-_]{2,256}@[a-zA-Z]{2,64}`
(scam_detection.py line 16). -/
def findUpis (s : String) : List String :=
  (findUpisAux s.toList.length s.toList).map String.mk

/-- Drop `pre` from the head of `cs`, or fail. -/
def stripL : List Char → List Char → Option (List Char)
  | [], cs => some cs
  | _ :: _, [] => none
  | p :: ps, c :: cs => if p == c then stripL ps cs else none

/-- Try to match `https?://\S+` at the head of `cs`.  The optional `s` is greedy, and
a prefix with an empty `\S+` body cannot backtrack into a successful match. -/
def urlMatchAt (cs : List Char) : Option (List Char × List Char) :=
  let tryPre : List Char → Option (List Char × List Char) := fun pre =>
    match stripL pre cs with
    | some rest =>
      let body := rest.takeWhile (fun c => !c.isWhitespace)
      if body.isEmpty then none else some (pre ++ body, rest.drop body.length)
    | none => none
  match tryPre "https://".toList with
  | some r => some r
  | none => tryPre "http://".toList

/-- Fueled scan for the URL pattern. -/
def findUrlsAux : Nat → List Char → List (List Char)
  | 0, _ => []
  | _, [] => []
  | fuel + 1, c :: t =>
    match urlMatchAt (c :: t) with
    | some (m, rest) => m :: findUrlsAux fuel rest
    | none => findUrlsAux fuel t

/-- `re.findall` for `https?://\S+` (scam_detection.py line 32). -/
def findUrls (s : String) : List String :=
  (findUrlsAux s.toList.length s.toList).map String.mk

/-! ## Data model (session_store.py lines 1-35) -/

/-- One entry of `conversationHistory`.  Python omits the `timestamp` key when the
passed value is falsy (`if timestamp:`), which the `Option` with `some 0 ↦ none`
normalisation in `update_session` reproduces. -/
structure ChatMessage where
  sender : String
  text : String
  timestamp : Option Nat
  deriving DecidableEq, Repr

/-- The `extractedIntelligence` dict of a session.  `governmentOfficialKey` models the
top-level key `intel["government_official"]` that scam_detection.py line 81 assigns
(instead of appending to `impersonationClaims`); its value is always the string
"government_official", so presence is all that matters. -/
structure ExtractedIntelligence where
  bankAccounts : List String
  upiIds : List String
  phishingLinks : List String
  phoneNumbers : List String
  suspiciousKeywords : List String
  tacticPatterns : List String
  organizationalClues : List String
  impersonationClaims : List String
  scamType : String
  sophisticationLevel : String
  governmentOfficialKey : Bool
  deriving DecidableEq, Repr

/-- A session record (session_store.py lines 4-23).  `confidence` is in tenths;
`callback_sent` is the flag read and written by main.py lines 203-207 (absent key
reads as `false`). -/
structure Session where
  sessionId : String
  turnCount : Nat
  conversationHistory : List ChatMessage
  extractedIntelligence : ExtractedIntelligence
  confidence : Nat
  callback_sent : Bool
  deriving DecidableEq, Repr

/-- The intelligence dict of a fresh session (session_store.py lines 9-20). -/
def emptyIntelligence : ExtractedIntelligence where
  bankAccounts := []
  upiIds := []
  phishingLinks := []
  phoneNumbers := []
  suspiciousKeywords := []
  tacticPatterns := []
  organizationalClues := []
  impersonationClaims := []
  scamType := "unknown"
  sophisticationLevel := "unknown"
  governmentOfficialKey := false

/-- Fresh-session branch of `get_or_create_session` (session_store.py lines 3-24).
The store map itself is not needed by any claim; the function returns the session a
first message for `session_id` starts from. -/
def get_or_create_session (session_id : String) : Session where
  sessionId := session_id
  turnCount := 0
  conversationHistory := []
  extractedIntelligence := emptyIntelligence
  confidence := 0
  callback_sent := false

/-- Python truthiness of the `timestamp` argument (`if timestamp:`): `None` and `0`
both leave the history entry without a timestamp. -/
def tsNorm : Option Nat → Option Nat
  | some 0 => none
  | x => x

/-- `update_session` (session_store.py lines 26-31): increments `turnCount` by one and
appends one history entry.  A falsy timestamp (Python `0` or `None`) is omitted. -/
def update_session (s : Session) (sender text : String) (timestamp : Option Nat) : Session :=
  { s with
      turnCount := s.turnCount + 1
      conversationHistory := s.conversationHistory ++ [⟨sender, text, tsNorm timestamp⟩] }

/-! ## detect_scam (scam_detection.py lines 5-113) -/

/-- Append `tag` unless already present — the
`if tag not in coll: coll.append(tag)` idiom of the source. -/
def appendIfAbsent (tag : String) (l : List String) : List String :=
  if tag ∈ l then l else l ++ [tag]

/-- One entity-extraction loop of `detect_scam` (e.g. lines 17-21): each found value
not already in the collection is appended and adds `weight` (tenths) to the running
confidence; an already-present value adds nothing. -/
def mergeEntityList (weight : Nat) : List String → List String × Nat → List String × Nat
  | [], st => st
  | e :: t, st =>
    mergeEntityList weight t (if e ∈ st.1 then st else (st.1 ++ [e], st.2 + weight))

/-- The scam-keyword table of `detect_scam` (lines 48-53), weights in tenths, in
Python dict insertion order. -/
def scamKeywords : List (String × Nat) :=
  [("kyc", 4), ("lottery", 5), ("urgent", 3), ("block", 3),
   ("win", 4), ("otp", 5), ("verify", 3), ("account", 2),
   ("suspend", 4), ("prize", 5), ("congratulations", 4),
   ("tax", 3), ("refund", 4), ("legal", 3), ("court", 4)]

/-- The keyword loop of `detect_scam` (lines 54-59) over an arbitrary table.  Note the
asymmetry faithfully kept from the source: the append is guarded by membership, but
`confidence += weight` sits outside that guard and fires on every turn in which the
keyword occurs in the message. -/
def keywordFoldAux (msgLower : String) :
    List (String × Nat) → List String × Nat → List String × Nat
  | [], st => st
  | kw :: rest, st =>
    keywordFoldAux msgLower rest
      (if strIn kw.1 msgLower then
        ((if kw.1 ∈ st.1 then st.1 else st.1 ++ [kw.1]), st.2 + kw.2)
      else st)

/-- The keyword loop of `detect_scam` over the source's table. -/
def keywordFold (msgLower : String) (st : List String × Nat) : List String × Nat :=
  keywordFoldAux msgLower scamKeywords st

/-- Tactic detection (lines 61-72): three guarded tag appends. -/
def tacticPhase (msgLower : String) (tp : List String) : List String :=
  let tp1 := if anyIn msgLower ["urgent", "immediately", "now", "today only", "within 24"]
    then appendIfAbsent "high_urgency_tactics" tp else tp
  let tp2 := if anyIn msgLower ["legal action", "arrest", "case", "court", "police"]
    then appendIfAbsent "legal_threat_tactics" tp1 else tp1
  if anyIn msgLower ["bank", "official", "department", "government"]
    then appendIfAbsent "authority_impersonation" tp2 else tp2

/-- The government vocabulary of line 79. -/
def govWords : List String := ["income tax", "gst", "government", "ministry", "customs"]

/-- Impersonation-claim detection (lines 74-85).  The government branch (lines 79-81)
checks `"government_official" not in intel["impersonationClaims"]` but then assigns
the top-level key `intel["government_official"]` instead of appending to the list;
the model sets the `governmentOfficialKey` flag there. -/
def impersonationPhase (msgLower : String) (claims : List String) (govKey : Bool) :
    List String × Bool :=
  let ic1 := if anyIn msgLower ["sbi", "hdfc", "icici", "axis", "bank of", "reserve bank"]
    then appendIfAbsent "bank_official" claims else claims
  let gk := if anyIn msgLower govWords then
      (if "government_official" ∈ ic1 then govKey else true)
    else govKey
  let ic2 := if anyIn msgLower ["lottery", "prize", "winner", "lucky draw"]
    then appendIfAbsent "lottery_organizer" ic1 else ic1
  (ic2, gk)

/-- Organizational-clue loop (lines 87-91).  Faithfully kept slip of the source: the
guard tests the raw `keyword` for membership, but the appended value is
`"mentioned_" ++ keyword`, so the guard never finds the appended form and a repeated
message appends the clue again. -/
def orgFoldAux (msgLower : String) : List String → List String → List String
  | [], acc => acc
  | kw :: rest, acc =>
    orgFoldAux msgLower rest
      (if strIn kw msgLower then
        (if kw ∈ acc then acc else acc ++ ["mentioned_" ++ kw])
      else acc)

/-- The organizational-clue loop over the source's keyword list. -/
def orgPhase (msgLower : String) (clues : List String) : List String :=
  orgFoldAux msgLower
    ["team", "senior", "manager", "department", "colleague", "supervisor", "head office"] clues

/-- The collection-merging part of `detect_scam` (lines 10-91): entity extraction,
keyword, tactic, impersonation and organizational merges, threading the running
confidence (tenths).  Weights: UPI 0.3, bank account 0.2, URL 0.3, phone 0.1. -/
def mergePhase (intel : ExtractedIntelligence) (conf0 : Nat) (message : String) :
    ExtractedIntelligence × Nat :=
  let msgLower := lowerStr message
  let st1 := mergeEntityList 3 (findUpis message) (intel.upiIds, conf0)
  let st2 := mergeEntityList 2 (scanDigitRuns 9 18 message) (intel.bankAccounts, st1.2)
  let st3 := mergeEntityList 3 (findUrls message) (intel.phishingLinks, st2.2)
  let st4 := mergeEntityList 1 (scanDigitRuns 10 12 message) (intel.phoneNumbers, st3.2)
  let st5 := keywordFold msgLower (intel.suspiciousKeywords, st4.2)
  let tp := tacticPhase msgLower intel.tacticPatterns
  let icgk := impersonationPhase msgLower intel.impersonationClaims intel.governmentOfficialKey
  let oc := orgPhase msgLower intel.organizationalClues
  ({ intel with
      upiIds := st1.1
      bankAccounts := st2.1
      phishingLinks := st3.1
      phoneNumbers := st4.1
      suspiciousKeywords := st5.1
      tacticPatterns := tp
      impersonationClaims := icgk.1
      governmentOfficialKey := icgk.2
      organizationalClues := oc }, st5.2)

/-- The scam-type classification block of `detect_scam` (lines 93-104).  Returns
`none` for the `NameError` of line 99: the lottery branch is written
`any(w in msg_lower for word in [...])`, so the generator evaluates the unbound name
`w` and raises as soon as the first two branches have failed; the OTP and URL
branches below it are unreachable.  With a non-default `scamType` the block is
skipped entirely and cannot raise. -/
def classifyInline (msgLower : String) (scamType : String) : Option String :=
  if scamType = "unknown" then
    if anyIn msgLower ["upi", "paytm", "phonepe", "gpay"] then some "UPI_fraud"
    else if anyIn msgLower ["kyc", "account", "bank"] then some "banking_fraud"
    else none
  else some scamType

/-- The dict returned by `detect_scam` (lines 108-113).  `confidence` is already
clamped; `round(confidence, 2)` is the identity on the tenths grid.  The `signals`
list is omitted: no claim concerns it and Python's final `list(set(signals))` has
unspecified order.  The float comparison `confidence > 0.3` of the source is exact
on stored (grid) confidences. -/
structure DetectResult where
  scamDetected : Bool
  confidence : Nat
  deriving DecidableEq, Repr

/-- `detect_scam` (scam_detection.py lines 5-113): merges the message's evidence into
the session intelligence in place, then classifies.  Returns the mutated session and
`some` result, or `none` when the classification block raises `NameError` — in which
case the collection mutations already performed persist in the returned session,
`scamType` is untouched and no confidence value is produced (main.py only stores
`detection_result["confidence"]` after a normal return). -/
def detect_scam (session : Session) (message : String) : Session × Option DetectResult :=
  let st := mergePhase session.extractedIntelligence session.confidence message
  match classifyInline (lowerStr message) session.extractedIntelligence.scamType with
  | none => ({ session with extractedIntelligence := st.1 }, none)
  | some sty =>
    let conf := min 10 st.2
    ({ session with extractedIntelligence := { st.1 with scamType := sty } },
      some { scamDetected := decide (3 < conf), confidence := conf })

/-! ## calculate_sophistication (scam_detection.py lines 115-152) -/

/-- Number of words of Python `text.split()`: maximal runs of non-whitespace. -/
def wordCountAux : Bool → List Char → Nat
  | _, [] => 0
  | inWord, c :: t =>
    if c.isWhitespace then wordCountAux false t
    else (if inWord then 0 else 1) + wordCountAux true t

/-- `len(m.split())` for one message text. -/
def wordCount (s : String) : Nat :=
  wordCountAux false s.toList

/-- `calculate_sophistication` (lines 115-152).  The average-length comparisons
`avg > 20` and `avg > 10` on `sum/len` are expressed exactly as `20 * len < sum`
and `10 * len < sum`.  The list-valued intelligence fields counted by the
`intel_types` comprehension are the five collections outside the three excluded
tag lists; the scalar string fields (and the stray `government_official` key)
fail its `isinstance(v, list)` test. -/
def calculate_sophistication (s : Session) : String :=
  let intel := s.extractedIntelligence
  let scammerMsgs :=
    (s.conversationHistory.filter (fun m => m.sender = "scammer")).map (fun m => m.text)
  let lengthScore :=
    if scammerMsgs.isEmpty then 0
    else
      let total := (scammerMsgs.map wordCount).foldl (fun a b => a + b) 0
      let n := scammerMsgs.length
      if 20 * n < total then 3 else if 10 * n < total then 1 else 0
  let intelTypes :=
    ([intel.bankAccounts, intel.upiIds, intel.phishingLinks, intel.phoneNumbers,
      intel.suspiciousKeywords].filter (fun l => ¬l.isEmpty)).length
  let score := lengthScore + intelTypes
    + (if intel.organizationalClues.length > 0 then 2 else 0)
    + (if 2 ≤ intel.tacticPatterns.length then 2 else 0)
    + (if 12 < s.turnCount then 2 else 0)
  if 8 ≤ score then "high" else if 4 ≤ score then "medium" else "low"

/-! ## The honeypot_message turn pipeline (main.py lines 116-257) -/

/-- Everything one authenticated call of the endpoint depends on besides the session:
the inbound message fields, the reply produced by the external LLM collaborator, its
timestamp, and the outcome of the external report transport
(`send_final_callback`, callback.py lines 53-79, which returns `True` on success and
`False` on any exception). -/
structure TurnInput where
  sender : String
  text : String
  timestamp : Option Nat
  reply : String
  replyTimestamp : Nat
  transportOk : Bool
  deriving DecidableEq, Repr

/-- One execution of the `honeypot_message` body (steps 2-6, main.py lines 116-257)
for an authenticated request, with the reply generator modelled as returning
`i.reply`.  Returns the updated session and whether the report dispatch fired this
turn.  When `detect_scam` raises (returns `none`) the `except` handler at line 250
catches it after the inbound `update_session` and the in-place intel mutations, so
confidence storage, the reply append and the escalation gate are all skipped.
The gate (lines 195-207) marks `callback_sent` only when the transport reports
success, and is suppressed whenever the flag is already set. -/
def honeypot_turn (s : Session) (i : TurnInput) : Session × Bool :=
  let s1 := update_session s i.sender i.text i.timestamp
  match detect_scam s1 i.text with
  | (s2, none) => (s2, false)
  | (s2, some r) =>
    let s3 := { s2 with confidence := r.confidence }
    let s4 := { s3 with extractedIntelligence :=
      { s3.extractedIntelligence with sophisticationLevel := calculate_sophistication s3 } }
    let s5 := update_session s4 "user" i.reply (some i.replyTimestamp)
    let shouldCallback : Prop :=
      (8 < r.confidence ∧ 3 ≤ s5.turnCount) ∨ (5 < r.confidence ∧ 8 ≤ s5.turnCount)
        ∨ 15 ≤ s5.turnCount
    if shouldCallback ∧ s5.callback_sent = false then
      (if i.transportOk then { s5 with callback_sent := true } else s5, true)
    else (s5, false)

/-- A sequence of endpoint calls for one session, counting how many times the report
dispatch fired (how many times `send_final_callback` was invoked). -/
def runTurns (s : Session) : List TurnInput → Session × Nat
  | [] => (s, 0)
  | i :: is =>
    let sf := honeypot_turn s i
    let rest := runTurns sf.1 is
    (rest.1, (if sf.2 then 1 else 0) + rest.2)

/-! ## The class-based classifiers (scam_detection.py lines 393-425 and 982-1013) -/

namespace ScamDetector

/-- `ScamDetector.classify_scam_type` (scam_detection.py lines 393-425): nested
first-match checks, banking first, defaulting to `banking_fraud`. -/
def classify_scam_type (text : String) : String :=
  let tl := lowerStr text
  if anyIn tl ["account", "sbi", "bank", "otp", "verify account"] then "banking_fraud"
  else if anyIn tl ["upi", "vpa", "@", "upi id"] then "upi_fraud"
  else if anyIn tl ["click", "http", "link", "verify here", "confirm here"] then "phishing_attack"
  else if anyIn tl ["password", "credentials", "username", "login"] then "credential_theft"
  else if anyIn tl ["invest", "return", "profit", "interest"] then "investment_scam"
  else if anyIn tl ["prize", "lottery", "won", "congratulations"] then "prize_scam"
  else "banking_fraud"

end ScamDetector

namespace PerfectScamDetector

/-- `PerfectScamDetector.classify_scam_type` (scam_detection.py lines 982-1013).
The banking branch returns only when `'upi'` is absent from the lowered text (lines
989-991); when `'upi'` is present control falls through to the UPI branch, whose
`'@' in text` test runs on the original (unlowered) text. -/
def classify_scam_type (text : String) : String :=
  let tl := lowerStr text
  if anyIn tl ["account", "sbi", "bank", "otp", "verify account", "block"] && !strIn "upi" tl
    then "banking_fraud"
  else if strIn "upi" tl || strIn "@" text then "upi_fraud"
  else if anyIn tl ["click", "http", "link", "verify here", "confirm here"] then "phishing_attack"
  else if anyIn tl ["password", "credentials", "username"] then "credential_theft"
  else if anyIn tl ["invest", "return", "profit", "interest"] then "investment_scam"
  else if anyIn tl ["prize", "lottery", "won", "congratulations"] then "prize_scam"
  else "banking_fraud"

end PerfectScamDetector

/-- Modelled from the spec (claim C7 wording): a classifier that checks the
payment-handle vocabulary first, then banking, then OTP/credential, then
link/phishing, then lottery/prize, then investment, first match winning, with the
banking-fraud default — instantiated with the source's own category vocabularies.
This definition follows the claim's words, for comparison against the embedded
classifiers; it is not a translation of any source function. -/
def claimPriorityClassify (text : String) : String :=
  let tl := lowerStr text
  if anyIn tl ["upi", "vpa", "@", "upi id"] then "upi_fraud"
  else if anyIn tl ["account", "sbi", "bank", "otp", "verify account"] then "banking_fraud"
  else if anyIn tl ["password", "credentials", "username", "login"] then "credential_theft"
  else if anyIn tl ["click", "http", "link", "verify here", "confirm here"] then "phishing_attack"
  else if anyIn tl ["prize", "lottery", "won", "congratulations"] then "prize_scam"
  else if anyIn tl ["invest", "return", "profit", "interest"] then "investment_scam"
  else "banking_fraud"

/-- Evaluation of a priority-ordered decision list of (vocabulary, label) categories
on a lowered text: the first category with a vocabulary hit wins, otherwise the
default label.  Used to state the amended form of claim C7. -/
def evalDecisionList (dflt : String) (tl : String) : List (List String × String) → String
  | [] => dflt
  | (vocab, label) :: rest =>
    if anyIn tl vocab then label else evalDecisionList dflt tl rest

/-- Total keyword weight (tenths) that a message re-adds on every processing turn:
the sum of the weights of all table keywords occurring in the lowered message. -/
def kwSumAux (msgLower : String) : List (String × Nat) → Nat
  | [] => 0
  | kw :: rest => (if strIn kw.1 msgLower then kw.2 else 0) + kwSumAux msgLower rest

/-- Keyword weight sum of a message over the `detect_scam` table. -/
def keywordWeightSum (message : String) : Nat :=
  kwSumAux (lowerStr message) scamKeywords

/-! ## Lemmas about the merge loops -/

theorem mergeEntityList_conf_le (w : Nat) (found : List String) (st : List String × Nat) :
    st.2 ≤ (mergeEntityList w found st).2 := by
  induction found generalizing st with
  | nil => exact Nat.le_refl _
  | cons e t ih =>
    simp only [mergeEntityList]
    by_cases h : e ∈ st.1
    · simp only [if_pos h]; exact ih st
    · simp only [if_neg h]
      exact Nat.le_trans (Nat.le_add_right _ _) (ih (st.1 ++ [e], st.2 + w))

theorem mergeEntityList_mem_coll (w : Nat) (found : List String) (st : List String × Nat)
    (e : String) (he : e ∈ st.1) : e ∈ (mergeEntityList w found st).1 := by
  induction found generalizing st with
  | nil => exact he
  | cons x t ih =>
    simp only [mergeEntityList]
    by_cases h : x ∈ st.1
    · simp only [if_pos h]; exact ih st he
    · simp only [if_neg h]
      exact ih (st.1 ++ [x], st.2 + w) (List.mem_append_left _ he)

theorem mergeEntityList_mem_found (w : Nat) (found : List String) (st : List String × Nat)
    (e : String) (he : e ∈ found) : e ∈ (mergeEntityList w found st).1 := by
  induction found generalizing st with
  | nil => cases he
  | cons x t ih =>
    simp only [mergeEntityList]
    rcases List.mem_cons.mp he with rfl | he2
    · by_cases h : e ∈ st.1
      · simp only [if_pos h]; exact mergeEntityList_mem_coll _ _ _ _ h
      · simp only [if_neg h]
        exact mergeEntityList_mem_coll _ _ _ _ (List.mem_append_right _ (by simp))
    · by_cases h : x ∈ st.1
      · simp only [if_pos h]; exact ih st he2
      · simp only [if_neg h]; exact ih (st.1 ++ [x], st.2 + w) he2

theorem mergeEntityList_stable (w : Nat) (found : List String) (st : List String × Nat)
    (h : ∀ e ∈ found, e ∈ st.1) : mergeEntityList w found st = st := by
  induction found with
  | nil => rfl
  | cons x t ih =>
    simp only [mergeEntityList, if_pos (h x (List.mem_cons_self x t))]
    exact ih (fun e he => h e (List.mem_cons_of_mem x he))

theorem keywordFoldAux_conf_le (ml : String) (kws : List (String × Nat))
    (st : List String × Nat) : st.2 ≤ (keywordFoldAux ml kws st).2 := by
  induction kws generalizing st with
  | nil => exact Nat.le_refl _
  | cons kw rest ih =>
    simp only [keywordFoldAux]
    by_cases h : strIn kw.1 ml
    · simp only [if_pos h]
      exact Nat.le_trans (Nat.le_add_right st.2 kw.2)
        (ih ((if kw.1 ∈ st.1 then st.1 else st.1 ++ [kw.1]), st.2 + kw.2))
    · simp only [if_neg h]; exact ih st

theorem keywordFoldAux_mem_coll (ml : String) (kws : List (String × Nat))
    (st : List String × Nat) (e : String) (he : e ∈ st.1) :
    e ∈ (keywordFoldAux ml kws st).1 := by
  induction kws generalizing st with
  | nil => exact he
  | cons kw rest ih =>
    simp only [keywordFoldAux]
    by_cases h : strIn kw.1 ml
    · simp only [if_pos h]
      by_cases hm : kw.1 ∈ st.1
      · simp only [if_pos hm]; exact ih (st.1, st.2 + kw.2) he
      · simp only [if_neg hm]
        exact ih (st.1 ++ [kw.1], st.2 + kw.2) (List.mem_append_left _ he)
    · simp only [if_neg h]; exact ih st he

theorem keywordFoldAux_mem_fired (ml : String) (kws : List (String × Nat))
    (st : List String × Nat) (kw : String × Nat) (hkw : kw ∈ kws)
    (hfire : strIn kw.1 ml = true) : kw.1 ∈ (keywordFoldAux ml kws st).1 := by
  induction kws generalizing st with
  | nil => cases hkw
  | cons k rest ih =>
    simp only [keywordFoldAux]
    rcases List.mem_cons.mp hkw with rfl | hkw2
    · simp only [if_pos hfire]
      by_cases hm : kw.1 ∈ st.1
      · simp only [if_pos hm]; exact keywordFoldAux_mem_coll _ _ _ _ hm
      · simp only [if_neg hm]
        exact keywordFoldAux_mem_coll _ _ _ _ (List.mem_append_right _ (by simp))
    · by_cases h : strIn k.1 ml
      · simp only [if_pos h]
        by_cases hm : k.1 ∈ st.1
        · simp only [if_pos hm]; exact ih (st.1, st.2 + k.2) hkw2
        · simp only [if_neg hm]; exact ih (st.1 ++ [k.1], st.2 + k.2) hkw2
      · simp only [if_neg h]; exact ih st hkw2

theorem keywordFoldAux_all_present (ml : String) (kws : List (String × Nat))
    (st : List String × Nat) (h : ∀ kw ∈ kws, strIn kw.1 ml = true → kw.1 ∈ st.1) :
    keywordFoldAux ml kws st = (st.1, st.2 + kwSumAux ml kws) := by
  induction kws generalizing st with
  | nil => simp [keywordFoldAux, kwSumAux]
  | cons kw rest ih =>
    simp only [keywordFoldAux, kwSumAux]
    by_cases hf : strIn kw.1 ml
    · have hm : kw.1 ∈ st.1 := h kw (List.mem_cons_self kw rest) hf
      simp only [if_pos hf, if_pos hm]
      rw [ih (st.1, st.2 + kw.2) (fun k hk hfk => h k (List.mem_cons_of_mem kw hk) hfk)]
      simp [hf, Nat.add_assoc]
    · simp only [if_neg hf]
      rw [ih st (fun k hk hfk => h k (List.mem_cons_of_mem kw hk) hfk)]
      have hf2 : strIn kw.1 ml = false := by
        cases hb : strIn kw.1 ml
        · rfl
        · exact absurd hb hf
      simp [hf2]

theorem mem_appendIfAbsent_iff (x y : String) (l : List String) (hxy : x ≠ y) :
    x ∈ appendIfAbsent y l ↔ x ∈ l := by
  unfold appendIfAbsent
  by_cases h : y ∈ l
  · simp [h]
  · simp [h, List.mem_append, hxy]

/-! ## Projection lemmas for the session operations -/

@[simp] theorem update_session_confidence (s : Session) (a b : String) (c : Option Nat) :
    (update_session s a b c).confidence = s.confidence := rfl

@[simp] theorem update_session_callback_sent (s : Session) (a b : String) (c : Option Nat) :
    (update_session s a b c).callback_sent = s.callback_sent := rfl

@[simp] theorem update_session_intel (s : Session) (a b : String) (c : Option Nat) :
    (update_session s a b c).extractedIntelligence = s.extractedIntelligence := rfl

@[simp] theorem update_session_turnCount (s : Session) (a b : String) (c : Option Nat) :
    (update_session s a b c).turnCount = s.turnCount + 1 := rfl

@[simp] theorem update_session_history (s : Session) (a b : String) (c : Option Nat) :
    (update_session s a b c).conversationHistory
      = s.conversationHistory ++ [⟨a, b, tsNorm c⟩] := rfl

/-! ## Lemmas about mergePhase, classifyInline and detect_scam -/

theorem mergePhase_conf_le (intel : ExtractedIntelligence) (conf0 : Nat) (m : String) :
    conf0 ≤ (mergePhase intel conf0 m).2 := by
  unfold mergePhase keywordFold
  dsimp only
  have h1 := mergeEntityList_conf_le 3 (findUpis m) (intel.upiIds, conf0)
  set st1 := mergeEntityList 3 (findUpis m) (intel.upiIds, conf0)
  have h2 := mergeEntityList_conf_le 2 (scanDigitRuns 9 18 m) (intel.bankAccounts, st1.2)
  set st2 := mergeEntityList 2 (scanDigitRuns 9 18 m) (intel.bankAccounts, st1.2)
  have h3 := mergeEntityList_conf_le 3 (findUrls m) (intel.phishingLinks, st2.2)
  set st3 := mergeEntityList 3 (findUrls m) (intel.phishingLinks, st2.2)
  have h4 := mergeEntityList_conf_le 1 (scanDigitRuns 10 12 m) (intel.phoneNumbers, st3.2)
  set st4 := mergeEntityList 1 (scanDigitRuns 10 12 m) (intel.phoneNumbers, st3.2)
  have h5 := keywordFoldAux_conf_le (lowerStr m) scamKeywords (intel.suspiciousKeywords, st4.2)
  dsimp only at h1 h2 h3 h4 h5
  omega

theorem mergePhase_contains (intel : ExtractedIntelligence) (conf0 : Nat) (m : String) :
    (∀ e ∈ findUpis m, e ∈ (mergePhase intel conf0 m).1.upiIds)
  ∧ (∀ e ∈ scanDigitRuns 9 18 m, e ∈ (mergePhase intel conf0 m).1.bankAccounts)
  ∧ (∀ e ∈ findUrls m, e ∈ (mergePhase intel conf0 m).1.phishingLinks)
  ∧ (∀ e ∈ scanDigitRuns 10 12 m, e ∈ (mergePhase intel conf0 m).1.phoneNumbers)
  ∧ (∀ kw ∈ scamKeywords, strIn kw.1 (lowerStr m) = true →
      kw.1 ∈ (mergePhase intel conf0 m).1.suspiciousKeywords) := by
  unfold mergePhase keywordFold
  dsimp only
  exact ⟨fun e he => mergeEntityList_mem_found _ _ _ _ he,
    fun e he => mergeEntityList_mem_found _ _ _ _ he,
    fun e he => mergeEntityList_mem_found _ _ _ _ he,
    fun e he => mergeEntityList_mem_found _ _ _ _ he,
    fun kw hk hf => keywordFoldAux_mem_fired _ _ _ _ hk hf⟩

theorem mergePhase_second_conf (intel : ExtractedIntelligence) (c : Nat) (m : String)
    (hupi : ∀ e ∈ findUpis m, e ∈ intel.upiIds)
    (hbank : ∀ e ∈ scanDigitRuns 9 18 m, e ∈ intel.bankAccounts)
    (hurl : ∀ e ∈ findUrls m, e ∈ intel.phishingLinks)
    (hphone : ∀ e ∈ scanDigitRuns 10 12 m, e ∈ intel.phoneNumbers)
    (hkw : ∀ kw ∈ scamKeywords, strIn kw.1 (lowerStr m) = true →
      kw.1 ∈ intel.suspiciousKeywords) :
    (mergePhase intel c m).2 = c + keywordWeightSum m := by
  unfold mergePhase keywordFold keywordWeightSum
  dsimp only
  rw [mergeEntityList_stable 3 (findUpis m) (intel.upiIds, c) hupi]
  dsimp only
  rw [mergeEntityList_stable 2 (scanDigitRuns 9 18 m) (intel.bankAccounts, c) hbank]
  dsimp only
  rw [mergeEntityList_stable 3 (findUrls m) (intel.phishingLinks, c) hurl]
  dsimp only
  rw [mergeEntityList_stable 1 (scanDigitRuns 10 12 m) (intel.phoneNumbers, c) hphone]
  dsimp only
  rw [keywordFoldAux_all_present (lowerStr m) scamKeywords (intel.suspiciousKeywords, c) hkw]

theorem classifyInline_of_ne (ml st : String) (h : st ≠ "unknown") :
    classifyInline ml st = some st := by
  unfold classifyInline
  rw [if_neg h]

theorem classifyInline_some_ne (ml st r : String) (h : classifyInline ml st = some r) :
    r ≠ "unknown" := by
  unfold classifyInline at h
  by_cases h1 : st = "unknown"
  · rw [if_pos h1] at h
    by_cases h2 : anyIn ml ["upi", "paytm", "phonepe", "gpay"] = true
    · rw [if_pos h2] at h
      cases h
      decide
    · rw [if_neg h2] at h
      by_cases h3 : anyIn ml ["kyc", "account", "bank"] = true
      · rw [if_pos h3] at h
        cases h
        decide
      · rw [if_neg h3] at h
        cases h
  · rw [if_neg h1] at h
    cases h
    exact h1

theorem detect_scam_preserves (s : Session) (m : String) :
    (detect_scam s m).1.confidence = s.confidence
  ∧ (detect_scam s m).1.turnCount = s.turnCount
  ∧ (detect_scam s m).1.callback_sent = s.callback_sent
  ∧ (detect_scam s m).1.conversationHistory = s.conversationHistory := by
  unfold detect_scam
  cases classifyInline (lowerStr m) s.extractedIntelligence.scamType with
  | none => exact ⟨rfl, rfl, rfl, rfl⟩
  | some sty => exact ⟨rfl, rfl, rfl, rfl⟩

theorem detect_scam_none_eq (s : Session) (m : String)
    (h : classifyInline (lowerStr m) s.extractedIntelligence.scamType = none) :
    detect_scam s m =
      ({ s with extractedIntelligence := (mergePhase s.extractedIntelligence s.confidence m).1 },
        none) := by
  unfold detect_scam
  rw [h]

theorem detect_scam_some_eq (s : Session) (m : String) (sty : String)
    (h : classifyInline (lowerStr m) s.extractedIntelligence.scamType = some sty) :
    detect_scam s m =
      ({ s with extractedIntelligence :=
          { (mergePhase s.extractedIntelligence s.confidence m).1 with scamType := sty } },
        some { scamDetected := decide (3 < min 10 (mergePhase s.extractedIntelligence s.confidence m).2),
               confidence := min 10 (mergePhase s.extractedIntelligence s.confidence m).2 }) := by
  unfold detect_scam
  rw [h]

/-! ## Lemmas about the turn pipeline -/

theorem honeypot_turn_none_eq (s : Session) (i : TurnInput) (s2 : Session)
    (h : detect_scam (update_session s i.sender i.text i.timestamp) i.text = (s2, none)) :
    honeypot_turn s i = (s2, false) := by
  simp only [honeypot_turn]
  rw [h]

theorem honeypot_turn_some_confidence (s : Session) (i : TurnInput) (s2 : Session)
    (r : DetectResult)
    (h : detect_scam (update_session s i.sender i.text i.timestamp) i.text = (s2, some r)) :
    (honeypot_turn s i).1.confidence = r.confidence := by
  simp only [honeypot_turn]
  rw [h]
  dsimp only
  split
  · split <;> rfl
  · rfl

theorem honeypot_turn_some_turnCount (s : Session) (i : TurnInput) (s2 : Session)
    (r : DetectResult)
    (h : detect_scam (update_session s i.sender i.text i.timestamp) i.text = (s2, some r)) :
    (honeypot_turn s i).1.turnCount = s2.turnCount + 1 := by
  simp only [honeypot_turn]
  rw [h]
  dsimp only
  split
  · split <;> rfl
  · rfl

theorem honeypot_turn_some_history (s : Session) (i : TurnInput) (s2 : Session)
    (r : DetectResult)
    (h : detect_scam (update_session s i.sender i.text i.timestamp) i.text = (s2, some r)) :
    (honeypot_turn s i).1.conversationHistory
      = s2.conversationHistory ++ [⟨"user", i.reply, tsNorm (some i.replyTimestamp)⟩] := by
  simp only [honeypot_turn]
  rw [h]
  dsimp only
  split
  · split <;> rfl
  · rfl

theorem honeypot_turn_some_intel (s : Session) (i : TurnInput) (s2 : Session)
    (r : DetectResult)
    (h : detect_scam (update_session s i.sender i.text i.timestamp) i.text = (s2, some r)) :
    (honeypot_turn s i).1.extractedIntelligence
      = { s2.extractedIntelligence with
          sophisticationLevel := calculate_sophistication { s2 with confidence := r.confidence } } := by
  simp only [honeypot_turn]
  rw [h]
  dsimp only
  split
  · split <;> rfl
  · rfl

theorem honeypot_turn_cb_eq (s : Session) (i : TurnInput) :
    (honeypot_turn s i).1.callback_sent
      = (s.callback_sent || ((honeypot_turn s i).2 && i.transportOk)) := by
  have hpre := (detect_scam_preserves (update_session s i.sender i.text i.timestamp) i.text).2.2.1
  simp only [honeypot_turn]
  rcases hd : detect_scam (update_session s i.sender i.text i.timestamp) i.text with ⟨s2, o⟩
  rw [hd] at hpre
  simp only [update_session_callback_sent] at hpre
  cases o with
  | none =>
    dsimp only
    rw [hpre]
    cases s.callback_sent <;> rfl
  | some r =>
    dsimp only
    split
    next hcond =>
      have h2 := hcond.2
      simp only [update_session_callback_sent] at h2
      have hs : s.callback_sent = false := by rw [← hpre]; exact h2
      cases htr : i.transportOk <;>
        simp [update_session_callback_sent, hpre, hs]
    next =>
      simp only [update_session_callback_sent]
      rw [hpre]
      cases s.callback_sent <;> rfl

theorem honeypot_turn_no_refire (s : Session) (i : TurnInput) (h : s.callback_sent = true) :
    (honeypot_turn s i).2 = false := by
  have hpre := (detect_scam_preserves (update_session s i.sender i.text i.timestamp) i.text).2.2.1
  simp only [honeypot_turn]
  rcases hd : detect_scam (update_session s i.sender i.text i.timestamp) i.text with ⟨s2, o⟩
  rw [hd] at hpre
  simp only [update_session_callback_sent] at hpre
  cases o with
  | none => rfl
  | some r =>
    dsimp only
    split
    next hcond =>
      exfalso
      have h2 := hcond.2
      simp only [update_session_callback_sent] at h2
      rw [hpre, h] at h2
      cases h2
    next => rfl

/-! ## Lemmas about runTurns -/

theorem runTurns_fst_cons (s : Session) (i : TurnInput) (t : List TurnInput) :
    (runTurns s (i :: t)).1 = (runTurns (honeypot_turn s i).1 t).1 := rfl

theorem runTurns_fst_append_one (s : Session) (is : List TurnInput) (i : TurnInput) :
    (runTurns s (is ++ [i])).1 = (honeypot_turn (runTurns s is).1 i).1 := by
  induction is generalizing s with
  | nil => rfl
  | cons j t ih =>
    rw [List.cons_append, runTurns_fst_cons, runTurns_fst_cons]
    exact ih (honeypot_turn s j).1

theorem detect_scam_some_inv (s : Session) (m : String) (s2 : Session) (r : DetectResult)
    (h : detect_scam s m = (s2, some r)) :
    ∃ sty, classifyInline (lowerStr m) s.extractedIntelligence.scamType = some sty ∧
      s2 = { s with extractedIntelligence :=
        { (mergePhase s.extractedIntelligence s.confidence m).1 with scamType := sty } } ∧
      r = { scamDetected := decide (3 < min 10 (mergePhase s.extractedIntelligence s.confidence m).2),
            confidence := min 10 (mergePhase s.extractedIntelligence s.confidence m).2 } := by
  cases hc : classifyInline (lowerStr m) s.extractedIntelligence.scamType with
  | none =>
    rw [detect_scam_none_eq s m hc] at h
    exact absurd (congrArg Prod.snd h) (by simp)
  | some sty =>
    rw [detect_scam_some_eq s m sty hc] at h
    have h1 := congrArg Prod.fst h
    have h2 := congrArg Prod.snd h
    dsimp only at h1 h2
    exact ⟨sty, rfl, h1.symm, (Option.some.inj h2).symm⟩

theorem honeypot_turn_conf_mono (s : Session) (i : TurnInput) (h : s.confidence ≤ 10) :
    s.confidence ≤ (honeypot_turn s i).1.confidence
  ∧ (honeypot_turn s i).1.confidence ≤ 10 := by
  rcases hd : detect_scam (update_session s i.sender i.text i.timestamp) i.text with ⟨s2, o⟩
  cases o with
  | none =>
    rw [honeypot_turn_none_eq s i s2 hd]
    have hp := (detect_scam_preserves (update_session s i.sender i.text i.timestamp) i.text).1
    rw [hd] at hp
    simp only [update_session_confidence] at hp
    exact ⟨hp.ge, hp ▸ h⟩
  | some r =>
    have hc := honeypot_turn_some_confidence s i s2 r hd
    obtain ⟨sty, hcl, hs2, hr⟩ := detect_scam_some_inv _ _ _ _ hd
    rw [hc, hr]
    dsimp only
    constructor
    · have hm := mergePhase_conf_le
        (update_session s i.sender i.text i.timestamp).extractedIntelligence
        (update_session s i.sender i.text i.timestamp).confidence i.text
      simp only [update_session_confidence, update_session_intel] at hm ⊢
      omega
    · exact Nat.min_le_left _ _

theorem runTurns_conf_invariant (s : Session) (is : List TurnInput) (h : s.confidence ≤ 10) :
    s.confidence ≤ (runTurns s is).1.confidence ∧ (runTurns s is).1.confidence ≤ 10 := by
  induction is generalizing s with
  | nil => exact ⟨Nat.le_refl _, h⟩
  | cons i t ih =>
    have hstep := honeypot_turn_conf_mono s i h
    have hrest := ih (honeypot_turn s i).1 hstep.2
    exact ⟨Nat.le_trans hstep.1 hrest.1, hrest.2⟩

theorem runTurns_cb_mono (s : Session) (is : List TurnInput) (h : s.callback_sent = true) :
    (runTurns s is).1.callback_sent = true ∧ (runTurns s is).2 = 0 := by
  induction is generalizing s with
  | nil => exact ⟨h, rfl⟩
  | cons i t ih =>
    have hcb : (honeypot_turn s i).1.callback_sent = true := by
      rw [honeypot_turn_cb_eq, h]
      exact Bool.true_or _
    have hf := honeypot_turn_no_refire s i h
    have hrest := ih (honeypot_turn s i).1 hcb
    refine ⟨hrest.1, ?_⟩
    show (if (honeypot_turn s i).2 then 1 else 0) + (runTurns (honeypot_turn s i).1 t).2 = 0
    rw [hf, hrest.2]
    rfl

theorem runTurns_count_le_one (s : Session) (is : List TurnInput)
    (h : ∀ j ∈ is, j.transportOk = true) :
    (runTurns s is).2 ≤ 1 := by
  induction is generalizing s with
  | nil => exact Nat.zero_le 1
  | cons i t ih =>
    show (if (honeypot_turn s i).2 then 1 else 0) + (runTurns (honeypot_turn s i).1 t).2 ≤ 1
    cases hf : (honeypot_turn s i).2
    · simpa using ih (honeypot_turn s i).1 (fun j hj => h j (List.mem_cons_of_mem i hj))
    · have htr := h i (List.mem_cons_self i t)
      have hcb : (honeypot_turn s i).1.callback_sent = true := by
        rw [honeypot_turn_cb_eq, hf, htr]
        simp
      have hrest := (runTurns_cb_mono (honeypot_turn s i).1 t hcb).2
      rw [hrest]
      simp

theorem detect_scam_scamType_sticky (s : Session) (m : String)
    (h : s.extractedIntelligence.scamType ≠ "unknown") :
    (detect_scam s m).1.extractedIntelligence.scamType
      = s.extractedIntelligence.scamType := by
  rw [detect_scam_some_eq s m s.extractedIntelligence.scamType (classifyInline_of_ne _ _ h)]

theorem honeypot_turn_scamType_sticky (s : Session) (i : TurnInput)
    (h : s.extractedIntelligence.scamType ≠ "unknown") :
    (honeypot_turn s i).1.extractedIntelligence.scamType
      = s.extractedIntelligence.scamType := by
  rcases hd : detect_scam (update_session s i.sender i.text i.timestamp) i.text with ⟨s2, o⟩
  have hst : s2.extractedIntelligence.scamType = s.extractedIntelligence.scamType := by
    have hd2 := detect_scam_scamType_sticky (update_session s i.sender i.text i.timestamp)
      i.text (by simpa using h)
    rw [hd] at hd2
    simpa using hd2
  cases o with
  | none =>
    rw [honeypot_turn_none_eq s i s2 hd]
    exact hst
  | some r =>
    have hint := honeypot_turn_some_intel s i s2 r hd
    calc (honeypot_turn s i).1.extractedIntelligence.scamType
        = s2.extractedIntelligence.scamType := by rw [hint]
      _ = s.extractedIntelligence.scamType := hst

theorem runTurns_scamType_sticky (s : Session) (is : List TurnInput)
    (h : s.extractedIntelligence.scamType ≠ "unknown") :
    (runTurns s is).1.extractedIntelligence.scamType
      = s.extractedIntelligence.scamType := by
  induction is generalizing s with
  | nil => rfl
  | cons i t ih =>
    rw [runTurns_fst_cons]
    have hstep := honeypot_turn_scamType_sticky s i h
    rw [ih (honeypot_turn s i).1 (by rw [hstep]; exact h), hstep]

theorem impersonationPhase_gov_mem (ml : String) (claims : List String) (gk : Bool) :
    ("government_official" ∈ (impersonationPhase ml claims gk).1)
      ↔ "government_official" ∈ claims := by
  unfold impersonationPhase
  dsimp only
  split
  · rw [mem_appendIfAbsent_iff _ _ _ (by decide : "government_official" ≠ "lottery_organizer")]
    split
    · exact mem_appendIfAbsent_iff _ _ _ (by decide)
    · exact Iff.rfl
  · split
    · exact mem_appendIfAbsent_iff _ _ _ (by decide)
    · exact Iff.rfl

theorem impersonationPhase_gov_key (ml : String) (claims : List String) (gk : Bool) :
    (impersonationPhase ml claims gk).2
      = (gk || (anyIn ml govWords && decide ("government_official" ∉ claims))) := by
  unfold impersonationPhase
  dsimp only
  by_cases h2 : anyIn ml govWords = true
  · rw [if_pos h2, h2]
    by_cases h3 : "government_official" ∈ claims
    · have hm : "government_official" ∈
          (if anyIn ml ["sbi", "hdfc", "icici", "axis", "bank of", "reserve bank"] = true
            then appendIfAbsent "bank_official" claims else claims) := by
        split
        · exact (mem_appendIfAbsent_iff _ _ _ (by decide)).mpr h3
        · exact h3
      rw [if_pos hm]
      simp [h3]
    · have hm : ¬ "government_official" ∈
          (if anyIn ml ["sbi", "hdfc", "icici", "axis", "bank of", "reserve bank"] = true
            then appendIfAbsent "bank_official" claims else claims) := by
        split
        · exact fun hmem => h3 ((mem_appendIfAbsent_iff _ _ _ (by decide)).mp hmem)
        · exact h3
      rw [if_neg hm]
      simp [h3]
  · rw [if_neg h2]
    have h2f : anyIn ml govWords = false := by
      cases hb : anyIn ml govWords
      · rfl
      · exact absurd hb h2
    rw [h2f]
    simp

theorem detect_scam_gov_fields (s : Session) (m : String) :
    (detect_scam s m).1.extractedIntelligence.impersonationClaims
      = (impersonationPhase (lowerStr m) s.extractedIntelligence.impersonationClaims
          s.extractedIntelligence.governmentOfficialKey).1
  ∧ (detect_scam s m).1.extractedIntelligence.governmentOfficialKey
      = (impersonationPhase (lowerStr m) s.extractedIntelligence.impersonationClaims
          s.extractedIntelligence.governmentOfficialKey).2 := by
  unfold detect_scam
  cases classifyInline (lowerStr m) s.extractedIntelligence.scamType with
  | none => exact ⟨rfl, rfl⟩
  | some sty => exact ⟨rfl, rfl⟩

/-! ## Claim theorems -/

/-- C1 (counterexample): the claim says that processing the identical message again as
the next turn leaves the session's confidence exactly equal.  On the message "kyc"
the stored confidence is 0.4 after turn 1 and 0.8 after the identical turn 2 (tenths
4 and 8): the keyword loop of detect_scam adds the keyword's weight outside its
dedup guard, so a repeated keyword re-adds its weight every turn. -/
theorem c1_confidence_not_idempotent_cex :
    (honeypot_turn (get_or_create_session "c1")
        ⟨"scammer", "kyc", none, "ok", 5, true⟩).1.confidence = 4
  ∧ (honeypot_turn (honeypot_turn (get_or_create_session "c1")
        ⟨"scammer", "kyc", none, "ok", 5, true⟩).1
        ⟨"scammer", "kyc", none, "ok", 5, true⟩).1.confidence = 8
  ∧ (honeypot_turn (honeypot_turn (get_or_create_session "c1")
        ⟨"scammer", "kyc", none, "ok", 5, true⟩).1
        ⟨"scammer", "kyc", none, "ok", 5, true⟩).1.confidence
      ≠ (honeypot_turn (get_or_create_session "c1")
        ⟨"scammer", "kyc", none, "ok", 5, true⟩).1.confidence := by
  refine ⟨by decide, by decide, by decide⟩

/-- C1 (amended): entity collections (UPI ids, bank accounts, URLs, phone numbers)
add confidence weight at most once per session, but every scam keyword occurring in
a message re-adds its weight on each turn it occurs.  Hence, after a turn whose
detection completed normally, processing a turn with the identical text gives
stored confidence `min 1.0 (previous + keywordWeightSum text)` — equal to the
previous value only when the text fires no keyword or the sum is already clamped. -/
theorem c1_keyword_weight_readded (s : Session) (i j : TurnInput)
    (htext : j.text = i.text)
    (hsome : (detect_scam (update_session s i.sender i.text i.timestamp) i.text).2.isSome
      = true) :
    (honeypot_turn (honeypot_turn s i).1 j).1.confidence
      = min 10 ((honeypot_turn s i).1.confidence + keywordWeightSum i.text) := by
  rcases hd : detect_scam (update_session s i.sender i.text i.timestamp) i.text with ⟨s2, o⟩
  rw [hd] at hsome
  cases o with
  | none => simp at hsome
  | some r =>
    obtain ⟨sty, hcl, hs2eq, hreq⟩ := detect_scam_some_inv _ _ _ _ hd
    have hintel1 := honeypot_turn_some_intel s i s2 r hd
    have hsty_ne : sty ≠ "unknown" := classifyInline_some_ne _ _ _ hcl
    have hst3 : (honeypot_turn s i).1.extractedIntelligence.scamType = sty := by
      rw [hintel1, hs2eq]
    have hcont := mergePhase_contains
      (update_session s i.sender i.text i.timestamp).extractedIntelligence
      (update_session s i.sender i.text i.timestamp).confidence i.text
    have hup : (honeypot_turn s i).1.extractedIntelligence.upiIds
        = (mergePhase (update_session s i.sender i.text i.timestamp).extractedIntelligence
            (update_session s i.sender i.text i.timestamp).confidence i.text).1.upiIds := by
      rw [hintel1, hs2eq]
    have hba : (honeypot_turn s i).1.extractedIntelligence.bankAccounts
        = (mergePhase (update_session s i.sender i.text i.timestamp).extractedIntelligence
            (update_session s i.sender i.text i.timestamp).confidence i.text).1.bankAccounts := by
      rw [hintel1, hs2eq]
    have hpl : (honeypot_turn s i).1.extractedIntelligence.phishingLinks
        = (mergePhase (update_session s i.sender i.text i.timestamp).extractedIntelligence
            (update_session s i.sender i.text i.timestamp).confidence i.text).1.phishingLinks := by
      rw [hintel1, hs2eq]
    have hpn : (honeypot_turn s i).1.extractedIntelligence.phoneNumbers
        = (mergePhase (update_session s i.sender i.text i.timestamp).extractedIntelligence
            (update_session s i.sender i.text i.timestamp).confidence i.text).1.phoneNumbers := by
      rw [hintel1, hs2eq]
    have hsk : (honeypot_turn s i).1.extractedIntelligence.suspiciousKeywords
        = (mergePhase (update_session s i.sender i.text i.timestamp).extractedIntelligence
            (update_session s i.sender i.text i.timestamp).confidence i.text).1.suspiciousKeywords := by
      rw [hintel1, hs2eq]
    have hcl2 : classifyInline (lowerStr j.text)
        (update_session (honeypot_turn s i).1 j.sender j.text
          j.timestamp).extractedIntelligence.scamType
        = some (honeypot_turn s i).1.extractedIntelligence.scamType := by
      simp only [update_session_intel]
      exact classifyInline_of_ne _ _ (by rw [hst3]; exact hsty_ne)
    have hdet2 := detect_scam_some_eq
      (update_session (honeypot_turn s i).1 j.sender j.text j.timestamp) j.text
      (honeypot_turn s i).1.extractedIntelligence.scamType hcl2
    have hconf2 := honeypot_turn_some_confidence (honeypot_turn s i).1 j _ _ hdet2
    rw [hconf2]
    dsimp only
    simp only [update_session_intel, update_session_confidence]
    rw [htext]
    rw [mergePhase_second_conf (honeypot_turn s i).1.extractedIntelligence
      (honeypot_turn s i).1.confidence i.text
      (fun e he => by rw [hup]; exact hcont.1 e he)
      (fun e he => by rw [hba]; exact hcont.2.1 e he)
      (fun e he => by rw [hpl]; exact hcont.2.2.1 e he)
      (fun e he => by rw [hpn]; exact hcont.2.2.2.1 e he)
      (fun kw hk hf => by rw [hsk]; exact hcont.2.2.2.2 kw hk hf)]

/-- C1 witness: the amended statement applied to the fresh session and the message
"kyc" twice: turn 1 detection completes and the identical turn 2 stores
`min 1.0 (0.4 + 0.4) = 0.8`. -/
theorem c1_keyword_weight_readded_witness :
    (detect_scam (update_session (get_or_create_session "w1") "scammer" "kyc" none)
        "kyc").2.isSome = true
  ∧ (honeypot_turn (honeypot_turn (get_or_create_session "w1")
        ⟨"scammer", "kyc", none, "ok", 5, true⟩).1
        ⟨"scammer", "kyc", none, "ok", 5, true⟩).1.confidence
      = min 10 ((honeypot_turn (get_or_create_session "w1")
          ⟨"scammer", "kyc", none, "ok", 5, true⟩).1.confidence + keywordWeightSum "kyc") :=
  ⟨by decide, c1_keyword_weight_readded (get_or_create_session "w1")
      ⟨"scammer", "kyc", none, "ok", 5, true⟩ ⟨"scammer", "kyc", none, "ok", 5, true⟩
      rfl (by decide)⟩

/-- C2: across any sequence of processed turns, the stored confidence (tenths of a
unit, so `≤ 10` is the float bound `≤ 1.0` and `0 ≤` holds by type) never decreases
from one turn to the next and stays within `[0.0, 1.0]`: no operation of the turn
pipeline decreases or resets it. -/
theorem c2_confidence_monotone_bounded (s : Session) (h : s.confidence ≤ 10)
    (pre : List TurnInput) (i : TurnInput) :
    (runTurns s pre).1.confidence ≤ (runTurns s (pre ++ [i])).1.confidence
  ∧ (runTurns s pre).1.confidence ≤ 10
  ∧ (runTurns s (pre ++ [i])).1.confidence ≤ 10 := by
  have hpre := runTurns_conf_invariant s pre h
  have happ := runTurns_fst_append_one s pre i
  have hstep := honeypot_turn_conf_mono (runTurns s pre).1 i hpre.2
  rw [happ]
  exact ⟨hstep.1, hpre.2, hstep.2⟩

/-- C2 witness: the bound and monotonicity at the fresh session, the empty prefix and
one concrete "kyc" turn. -/
theorem c2_confidence_monotone_bounded_witness :
    (get_or_create_session "w2").confidence ≤ 10
  ∧ ((runTurns (get_or_create_session "w2") []).1.confidence
      ≤ (runTurns (get_or_create_session "w2")
          ([] ++ [⟨"scammer", "kyc", none, "ok", 5, true⟩])).1.confidence
    ∧ (runTurns (get_or_create_session "w2") []).1.confidence ≤ 10
    ∧ (runTurns (get_or_create_session "w2")
        ([] ++ [⟨"scammer", "kyc", none, "ok", 5, true⟩])).1.confidence ≤ 10) :=
  ⟨by decide, c2_confidence_monotone_bounded (get_or_create_session "w2") (by decide)
      [] ⟨"scammer", "kyc", none, "ok", 5, true⟩⟩

/-- C3 (counterexample): with the transport failing, four identical "kyc" turns on a
fresh session dispatch the external report twice (at turns 3 and 4): on transport
failure `callback_sent` is not set, so the gate re-fires — the claim's
"at most once even when the transport fails" is false on the code. -/
theorem c3_report_refires_on_transport_failure_cex :
    (runTurns (get_or_create_session "c3")
      [⟨"scammer", "kyc", none, "ok", 5, false⟩, ⟨"scammer", "kyc", none, "ok", 5, false⟩,
       ⟨"scammer", "kyc", none, "ok", 5, false⟩, ⟨"scammer", "kyc", none, "ok", 5, false⟩]).2 = 2
  ∧ ¬ (runTurns (get_or_create_session "c3")
      [⟨"scammer", "kyc", none, "ok", 5, false⟩, ⟨"scammer", "kyc", none, "ok", 5, false⟩,
       ⟨"scammer", "kyc", none, "ok", 5, false⟩, ⟨"scammer", "kyc", none, "ok", 5, false⟩]).2 ≤ 1 := by
  refine ⟨by decide, by decide⟩

/-- C3 (amended): once `callback_sent` is true it never reverts and no later turn
dispatches again; and across any sequence of turns whose report transports all
succeed, the dispatch fires at most once.  (On transport failure the flag stays
false and a later qualifying turn re-dispatches, as the counterexample shows.) -/
theorem c3_at_most_once_when_transport_succeeds (s : Session) (is : List TurnInput) :
    (s.callback_sent = true →
      (runTurns s is).1.callback_sent = true ∧ (runTurns s is).2 = 0)
  ∧ ((∀ j ∈ is, j.transportOk = true) → (runTurns s is).2 ≤ 1) :=
  ⟨fun h => runTurns_cb_mono s is h, fun h => runTurns_count_le_one s is h⟩

/-- C3 witness: both parts at concrete inputs — a session already reported stays
reported with zero dispatches, and a fresh session with one successful-transport
turn dispatches at most once. -/
theorem c3_at_most_once_when_transport_succeeds_witness :
    ((runTurns { get_or_create_session "w3" with callback_sent := true }
        [⟨"scammer", "kyc", none, "ok", 5, true⟩]).1.callback_sent = true
      ∧ (runTurns { get_or_create_session "w3" with callback_sent := true }
          [⟨"scammer", "kyc", none, "ok", 5, true⟩]).2 = 0)
  ∧ (runTurns (get_or_create_session "w3b")
      [⟨"scammer", "kyc", none, "ok", 5, true⟩]).2 ≤ 1 :=
  ⟨(c3_at_most_once_when_transport_succeeds
      { get_or_create_session "w3" with callback_sent := true }
      [⟨"scammer", "kyc", none, "ok", 5, true⟩]).1 rfl,
   (c3_at_most_once_when_transport_succeeds (get_or_create_session "w3b")
      [⟨"scammer", "kyc", none, "ok", 5, true⟩]).2 (by decide)⟩

/-- C4 (counterexample): after one inbound message ("kyc", normally processed with a
generated reply), the session's `turnCount` is 2, not 1: `update_session` is called
for the inbound message and again for the agent reply. -/
theorem c4_turncount_two_per_inbound_cex :
    (honeypot_turn (get_or_create_session "c4")
        ⟨"scammer", "kyc", none, "ok", 5, true⟩).1.turnCount = 2
  ∧ (honeypot_turn (get_or_create_session "c4")
        ⟨"scammer", "kyc", none, "ok", 5, true⟩).1.turnCount ≠ 1 := by
  refine ⟨by decide, by decide⟩

/-- C4 (amended): `turnCount` is incremented once per message appended to the
conversation history — the inbound message and, when detection completes normally
and a reply is generated, the responder reply — so a normally processed inbound
message adds 2 (and an aborted one adds 1), in lockstep with the history length. -/
theorem c4_turncount_per_appended_message (s : Session) (i : TurnInput) :
    (honeypot_turn s i).1.turnCount
      = s.turnCount + 1
        + (if (detect_scam (update_session s i.sender i.text i.timestamp) i.text).2.isSome
            then 1 else 0)
  ∧ (honeypot_turn s i).1.conversationHistory.length
      = s.conversationHistory.length + 1
        + (if (detect_scam (update_session s i.sender i.text i.timestamp) i.text).2.isSome
            then 1 else 0) := by
  rcases hd : detect_scam (update_session s i.sender i.text i.timestamp) i.text with ⟨s2, o⟩
  have hpre := detect_scam_preserves (update_session s i.sender i.text i.timestamp) i.text
  rw [hd] at hpre
  obtain ⟨-, hp2, -, hp4⟩ := hpre
  simp only [update_session_turnCount, update_session_history] at hp2 hp4
  cases o with
  | none =>
    rw [honeypot_turn_none_eq s i s2 hd]
    constructor
    · simpa using hp2
    · rw [hp4]
      simp
  | some r =>
    constructor
    · rw [honeypot_turn_some_turnCount s i s2 r hd, hp2]
      simp
    · rw [honeypot_turn_some_history s i s2 r hd, hp4]
      simp

/-- C5: on the message "lottery" (scam type still "unknown", no payment-handle and no
banking vocabulary) `detect_scam` does not return normally: the classification
block's lottery branch is written `any(w in msg_lower for word in [...])`, so the
generator evaluates the unbound name `w` and raises `NameError` (modelled as
`none`).  The evidence merged before the raise persists in the session. -/
theorem c5_detect_scam_nameerror :
    (detect_scam (get_or_create_session "c5") "lottery").2 = none
  ∧ (detect_scam (get_or_create_session "c5")
      "lottery").1.extractedIntelligence.suspiciousKeywords = ["lottery"] := by
  refine ⟨by decide, by decide⟩

/-- C6: sticky scam type — once the session's `scamType` is any non-default value
(not "unknown"), no sequence of subsequently processed turns, whatever their
message content, changes it. -/
theorem c6_scam_type_sticky (s : Session) (is : List TurnInput)
    (h : s.extractedIntelligence.scamType ≠ "unknown") :
    (runTurns s is).1.extractedIntelligence.scamType = s.extractedIntelligence.scamType :=
  runTurns_scamType_sticky s is h

/-- C6 witness: a session already classified as banking_fraud keeps that label across
a turn whose message ("lottery") would otherwise classify differently. -/
theorem c6_scam_type_sticky_witness :
    ({ get_or_create_session "w6" with extractedIntelligence :=
        { emptyIntelligence with scamType := "banking_fraud" } } : Session).extractedIntelligence.scamType
      ≠ "unknown"
  ∧ (runTurns ({ get_or_create_session "w6" with extractedIntelligence :=
        { emptyIntelligence with scamType := "banking_fraud" } } : Session)
      [⟨"scammer", "lottery", none, "ok", 5, true⟩]).1.extractedIntelligence.scamType
      = ({ get_or_create_session "w6" with extractedIntelligence :=
        { emptyIntelligence with scamType := "banking_fraud" } } : Session).extractedIntelligence.scamType :=
  ⟨by decide, c6_scam_type_sticky _ _ (by decide)⟩

/-- C7 (counterexample): on the text "upi bank", which fires both the payment-handle
and the banking vocabularies, `ScamDetector.classify_scam_type` returns
"banking_fraud", while the claim's priority order (payment-handle vocabulary first)
yields "upi_fraud": the decision list is not evaluated in the claimed order. -/
theorem c7_priority_order_cex :
    ScamDetector.classify_scam_type "upi bank" = "banking_fraud"
  ∧ claimPriorityClassify "upi bank" = "upi_fraud"
  ∧ ("banking_fraud" : String) ≠ "upi_fraud" := by
  refine ⟨by decide, by decide, by decide⟩

/-- C7 (amended): the classification is a priority-ordered decision list with the
banking-fraud default, but the actual order in `ScamDetector.classify_scam_type` is:
banking, payment/UPI, link/phishing, credential, investment, lottery/prize.
`PerfectScamDetector.classify_scam_type` uses the same order except its banking
branch is skipped whenever "upi" occurs in the lowered text, so any such text
classifies as "upi_fraud". -/
theorem c7_actual_priority_order :
    (∀ t, ScamDetector.classify_scam_type t
      = evalDecisionList "banking_fraud" (lowerStr t)
          [(["account", "sbi", "bank", "otp", "verify account"], "banking_fraud"),
           (["upi", "vpa", "@", "upi id"], "upi_fraud"),
           (["click", "http", "link", "verify here", "confirm here"], "phishing_attack"),
           (["password", "credentials", "username", "login"], "credential_theft"),
           (["invest", "return", "profit", "interest"], "investment_scam"),
           (["prize", "lottery", "won", "congratulations"], "prize_scam")])
  ∧ (∀ t, strIn "upi" (lowerStr t) = true →
      PerfectScamDetector.classify_scam_type t = "upi_fraud") := by
  constructor
  · intro t
    rfl
  · intro t ht
    unfold PerfectScamDetector.classify_scam_type
    dsimp only
    rw [ht]
    simp

/-- C7 witness: the amended characterization evaluated at "upi bank" (decision-list
form) and at "upi" (the Perfect classifier's upi short-circuit). -/
theorem c7_actual_priority_order_witness :
    ScamDetector.classify_scam_type "upi bank"
      = evalDecisionList "banking_fraud" (lowerStr "upi bank")
          [(["account", "sbi", "bank", "otp", "verify account"], "banking_fraud"),
           (["upi", "vpa", "@", "upi id"], "upi_fraud"),
           (["click", "http", "link", "verify here", "confirm here"], "phishing_attack"),
           (["password", "credentials", "username", "login"], "credential_theft"),
           (["invest", "return", "profit", "interest"], "investment_scam"),
           (["prize", "lottery", "won", "congratulations"], "prize_scam")]
  ∧ strIn "upi" (lowerStr "upi") = true
  ∧ PerfectScamDetector.classify_scam_type "upi" = "upi_fraud" :=
  ⟨c7_actual_priority_order.1 "upi bank", by decide,
   c7_actual_priority_order.2 "upi" (by decide)⟩

/-- C8: feeding the message "team" twice into one session appends "mentioned_team"
twice: the organizational-clue dedup guard compares the raw keyword "team" against a
collection that only ever holds "mentioned_"-prefixed values, so it never blocks and
the collection is not set-like — the size grows and a duplicate appears. -/
theorem c8_org_clue_duplicated :
    (honeypot_turn (get_or_create_session "c8")
        ⟨"scammer", "team", none, "ok", 5, true⟩).1.extractedIntelligence.organizationalClues
      = ["mentioned_team"]
  ∧ (honeypot_turn (honeypot_turn (get_or_create_session "c8")
        ⟨"scammer", "team", none, "ok", 5, true⟩).1
        ⟨"scammer", "team", none, "ok", 5, true⟩).1.extractedIntelligence.organizationalClues
      = ["mentioned_team", "mentioned_team"] := by
  refine ⟨by decide, by decide⟩

/-- C9 (counterexample): after the two turns "9876543210" and "+91-9876543210" the
session's phone collection holds exactly the bare string "9876543210" — not a
canonical country-coded representation such as "+91-9876543210"; the session
pipeline stores the raw 10-digit capture, it does not country-code it. -/
theorem c9_phone_entry_not_country_coded_cex :
    (runTurns (get_or_create_session "c9")
      [⟨"scammer", "9876543210", none, "ok", 5, true⟩,
       ⟨"scammer", "+91-9876543210", none, "ok", 5, true⟩]).1.extractedIntelligence.phoneNumbers
      = ["9876543210"]
  ∧ ("9876543210" : String) ≠ "+91-9876543210" := by
  refine ⟨by decide, by decide⟩

/-- C9 (amended): processing "9876543210" and "+91-9876543210" in two turns of one
session — in either order — yields exactly one phone-number entry, the bare string
"9876543210": the extraction regex captures only the 10-digit core of both surface
forms, so they deduplicate to one entry without any country-code normalization. -/
theorem c9_single_phone_entry :
    (runTurns (get_or_create_session "c9a")
      [⟨"scammer", "9876543210", none, "ok", 5, true⟩,
       ⟨"scammer", "+91-9876543210", none, "ok", 5, true⟩]).1.extractedIntelligence.phoneNumbers
      = ["9876543210"]
  ∧ (runTurns (get_or_create_session "c9b")
      [⟨"scammer", "+91-9876543210", none, "ok", 5, true⟩,
       ⟨"scammer", "9876543210", none, "ok", 5, true⟩]).1.extractedIntelligence.phoneNumbers
      = ["9876543210"] := by
  refine ⟨by decide, by decide⟩

/-- C10: `detect_scam` never adds the tag "government_official" to the session's
`impersonationClaims` collection — membership of that tag after a call is the same
as before — and when the government vocabulary is present and the tag absent, the
code instead sets the stray top-level key `intel["government_official"]` (modelled
as the `governmentOfficialKey` flag). -/
theorem c10_government_tag_never_added (s : Session) (m : String) :
    (("government_official" ∈ (detect_scam s m).1.extractedIntelligence.impersonationClaims)
      ↔ "government_official" ∈ s.extractedIntelligence.impersonationClaims)
  ∧ (detect_scam s m).1.extractedIntelligence.governmentOfficialKey
      = (s.extractedIntelligence.governmentOfficialKey
          || (anyIn (lowerStr m) govWords
              && decide ("government_official" ∉ s.extractedIntelligence.impersonationClaims))) := by
  obtain ⟨h1, h2⟩ := detect_scam_gov_fields s m
  rw [h1, h2, impersonationPhase_gov_key]
  exact ⟨impersonationPhase_gov_mem _ _ _, rfl⟩
